import Mathlib

/-!
Verification of the kinematics integrator, compositor and input handling of
the side-scrolling character demo (`src/main.cpp`).

Floating-point (`float`) state and arithmetic are modelled over `ℚ`, an exact
idealisation of the IEEE arithmetic of the source; comparisons such as the exact
grounded test `position[1] != (float)ground_height` become exact `ℚ`
comparisons. Machine integers (`int`, `size_t`) are modelled as `ℤ` / `ℕ`,
with C integer division kept where the source uses it.
-/

namespace Game

/-- Display width in pixels: `const size_t width = 800`. -/
def width : ℕ := 800

/-- Display height in pixels: `const size_t height = 480`. -/
def height : ℕ := 480

/-- Scale factor `const size_t pixels_per_meter = 64`. -/
def pixels_per_meter : ℕ := 64

/-- Ground plane height: `const size_t ground_height = height / 5` (Nat division). -/
def ground_height : ℕ := height / 5

/-- A 2D float vector (`Eigen::Vector2f`), modelled over `ℚ`. -/
structure Vec where
  x : ℚ
  y : ℚ
deriving DecidableEq

/-- The controllable character: `class Entity` with fields
`int direction; Vector position; Vector velocity;` (the sprite pointers carry
no numeric state and are modelled separately by the sprite geometry below). -/
structure Entity where
  direction : ℤ
  position : Vec
  velocity : Vec
deriving DecidableEq

/-- The local `float gravity = -9.81f * pixels_per_meter;` of `Entity::step`. -/
def gravity : ℚ := -9.81 * (pixels_per_meter : ℚ)

/-- Body of `Entity::step` after the airborne adjustment of its
`input`/`jump` arguments (lines 91-109 of `main.cpp`):
velocity updates, forward-Euler position update, direction update, ground
clamp, in source order. -/
def Entity.stepCore (e : Entity) (time input jump : ℚ) : Entity :=
  let vx := e.velocity.x + (input - 8 * e.velocity.x) * time
  let vy := e.velocity.y + (jump + (gravity - 0.2 * e.velocity.y) * time)
  let px := e.position.x + vx * time
  let py := e.position.y + vy * time
  let dir := if vx ≠ 0 then (if vx > 0 then (1 : ℤ) else -1) else e.direction
  if py < (ground_height : ℚ) then
    { direction := dir, position := ⟨px, (ground_height : ℚ)⟩, velocity := ⟨vx, 0⟩ }
  else
    { direction := dir, position := ⟨px, py⟩, velocity := ⟨vx, vy⟩ }

/-- `Entity::step(float time, float input, float jump)`: when the entity is
airborne (`position[1] != (float)ground_height`, exact equality test) the
call mutates `jump = 0.0f` and `input *= 0.5` before the integration body. -/
def Entity.step (e : Entity) (time input jump : ℚ) : Entity :=
  if e.position.y ≠ (ground_height : ℚ) then
    e.stepCore time (input * 0.5) 0
  else
    e.stepCore time input jump

/-- `Entity::Entity`: `direction(1)`, `position << 0, 0`, `velocity << 0, 0`. -/
def Entity.init : Entity :=
  { direction := 1, position := ⟨0, 0⟩, velocity := ⟨0, 0⟩ }

/-- The two global control scalars `int character_input = 0; int character_jump = 0;`. -/
structure Controls where
  character_input : ℤ
  character_jump : ℤ
deriving DecidableEq

/-- The C++ static zero-initialization of the globals. -/
def initial_controls : Controls := ⟨0, 0⟩

/-- `allocate()`, restricted to its numeric state: the statement
`character_input << 1, 0;` is a value-discarding left-shift inside a comma
expression — it evaluates `character_input << 1` (i.e. `character_input * 2`)
and `0` and discards both values, leaving `character_input` unchanged — and
the character is `Entity(guy, guy_running)` with `position(0) += 50;
position(1) += ground_height;` applied afterwards. The cairo pattern and
sprite allocations carry no numeric state. -/
def allocate (g : Controls) : Controls × Entity :=
  let _discarded := (g.character_input * 2, (0 : ℤ))
  let c := Entity.init
  let c : Entity :=
    { c with position := ⟨c.position.x + 50, c.position.y + (ground_height : ℚ)⟩ }
  (g, c)

/-- The global `Entity *character` as produced by `allocate()`. -/
def character : Entity := (allocate initial_controls).2

/-- Which sprite `Entity::render` draws. -/
inductive SpriteChoice
  | idle
  | running
deriving DecidableEq

/-- Sprite selection in `Entity::render`:
`Sprite *to_draw = abs(velocity[0]) > 10.0f ? sprite_running : sprite;`. -/
def Entity.sprite_to_draw (e : Entity) : SpriteChoice :=
  if |e.velocity.x| > 10.0 then .running else .idle

/-- `Sprite::Sprite` anchor offset for an image of pixel size `w × h`:
`offset << (float)(0 - w / 2), (float)h` — note `w / 2` is C integer
division. -/
def sprite_offset (w h : ℕ) : Vec :=
  ⟨0 - ((w / 2 : ℕ) : ℚ), (h : ℚ)⟩

/-- `Sprite::render(cr, position)`: `position += offset;` then the surface is
placed at user-space point `(position.x(), height - position.y())`. -/
def sprite_render_point (w h : ℕ) (position : Vec) : Vec :=
  let p : Vec := ⟨position.x + (sprite_offset w h).x, position.y + (sprite_offset w h).y⟩
  ⟨p.x, (height : ℚ) - p.y⟩

/-- The position `Entity::render` hands to `Sprite::render`:
`Vector(position[0] * direction, position[1])`. -/
def Entity.sprite_position (e : Entity) : Vec :=
  ⟨e.position.x * (e.direction : ℚ), e.position.y⟩

/-- User-space placement point of the sprite drawn for entity `e` with a
`w × h` sprite image. -/
def Entity.draw_point (e : Entity) (w h : ℕ) : Vec :=
  sprite_render_point w h e.sprite_position

/-- Device-space horizontal extent of the painted sprite, modelling cairo:
`Entity::render` runs `cairo_scale(cr, direction, 1.0)` so device x equals
`direction *` user x, and `cairo_set_source_surface` + `cairo_paint` cover
user-space x in `[p.x, p.x + w]` where `p` is the placement point. The pair
is the (low, high) interval of the image of that segment. -/
def Entity.device_x_extent (e : Entity) (w h : ℕ) : ℚ × ℚ :=
  let ux := (e.draw_point w h).x
  if 0 ≤ e.direction then
    ((e.direction : ℚ) * ux, (e.direction : ℚ) * (ux + (w : ℚ)))
  else
    ((e.direction : ℚ) * (ux + (w : ℚ)), (e.direction : ℚ) * ux)

/-- Keys the demo reacts to (`SDLK_a`, `SDLK_d`, `SDLK_w`, `SDLK_LEFT`,
`SDLK_RIGHT`, `SDLK_UP`, `SDLK_SPACE`), plus any other key. -/
inductive Key
  | a
  | d
  | w
  | left
  | right
  | up
  | space
  | other
deriving DecidableEq

/-- SDL events the demo reacts to: key up/down, `SDL_QUIT`, anything else. -/
inductive Event
  | key_up (k : Key)
  | key_down (k : Key)
  | quit
  | other
deriving DecidableEq

/-- `bool handle_event(SDL_Event &event)`: mutates the control globals and
returns whether the main loop keeps running (`false` only for `SDL_QUIT`). -/
def handle_event (ev : Event) (g : Controls) : Bool × Controls :=
  match ev with
  | .key_up k =>
    match k with
    | .a | .left => (true, { g with character_input := g.character_input + 1 })
    | .d | .right => (true, { g with character_input := g.character_input - 1 })
    | _ => (true, g)
  | .key_down k =>
    match k with
    | .a | .left => (true, { g with character_input := g.character_input - 1 })
    | .d | .right => (true, { g with character_input := g.character_input + 1 })
    | .w | .up | .space => (true, { g with character_jump := 1 })
    | _ => (true, g)
  | .quit => (false, g)
  | .other => (true, g)

/-- The per-frame global `void step(float time)`:
`character->step(time, character_input * 1500.0f, character_jump * 350.0f);
character_jump = 0;`. -/
def step (g : Controls) (c : Entity) (time : ℚ) : Controls × Entity :=
  (⟨g.character_input, 0⟩,
   c.step time ((g.character_input : ℚ) * 1500.0) ((g.character_jump : ℚ) * 350.0))

/-- Iterating the concrete run scenario of the spec: `step(0.016, 1500, 0)`
applied `n` times from the freshly allocated character. -/
def run_scenario (n : ℕ) : Entity :=
  (fun e : Entity => e.step 0.016 1500 0)^[n] character

/-- Iterating `step(0.016, 0, 0)` from an arbitrary start entity. -/
def idle_scenario (e : Entity) (n : ℕ) : Entity :=
  (fun e2 : Entity => e2.step 0.016 0 0)^[n] e

end Game

namespace Game

theorem ground_height_q : (ground_height : ℚ) = 96 := by
  norm_num [ground_height, height]

theorem gravity_val : gravity = -15696 / 25 := by
  norm_num [gravity, pixels_per_meter]

/-- Claim C1: for every entity state and every `dt`, `input`, `jumpImpulse`,
`step` updates the state by exactly the forward-Euler equations in source
order — `velocity.x += (input - 8*velocity.x) * dt`;
`velocity.y += jumpImpulse + (g - 0.2*velocity.y) * dt` with
`g = -9.81 * pixels_per_meter`; then `position += velocity * dt` on both axes
using the updated velocities — where `input` and `jumpImpulse` are first
adjusted by the airborne rule (and the vertical components then pass through
the ground clamp). -/
theorem step_euler_equations (e : Entity) (dt input jump : ℚ) :
    (e.step dt input jump).velocity.x
      = e.velocity.x
        + ((if e.position.y = (ground_height : ℚ) then input else input * 0.5)
            - 8 * e.velocity.x) * dt ∧
    (e.step dt input jump).position.x
      = e.position.x + (e.step dt input jump).velocity.x * dt ∧
    ((e.position.y
        + (e.velocity.y
            + ((if e.position.y = (ground_height : ℚ) then jump else 0)
                + (gravity - 0.2 * e.velocity.y) * dt)) * dt)
          < (ground_height : ℚ) →
      (e.step dt input jump).velocity.y = 0 ∧
      (e.step dt input jump).position.y = (ground_height : ℚ)) ∧
    (¬ (e.position.y
        + (e.velocity.y
            + ((if e.position.y = (ground_height : ℚ) then jump else 0)
                + (gravity - 0.2 * e.velocity.y) * dt)) * dt)
          < (ground_height : ℚ) →
      (e.step dt input jump).velocity.y
        = e.velocity.y
          + ((if e.position.y = (ground_height : ℚ) then jump else 0)
              + (gravity - 0.2 * e.velocity.y) * dt) ∧
      (e.step dt input jump).position.y
        = e.position.y + (e.step dt input jump).velocity.y * dt) := by
  by_cases h : e.position.y = (ground_height : ℚ) <;>
    simp only [Entity.step, Entity.stepCore, h, if_pos, if_neg, ite_true, ite_false,
      ne_eq, not_true_eq_false, not_false_eq_true, if_true, if_false] <;>
    split_ifs with hc <;>
    simp_all

/-- Witness for C1: the concrete jump step `step(0.016, 0, 350)` of the
allocated character instantiates the equations; there the integrated
`position.y` stays above ground, so the unclamped Euler branch applies. -/
theorem step_euler_equations_witness :
    (character.step 0.016 0 350).velocity.y
      = character.velocity.y
        + ((if character.position.y = (ground_height : ℚ) then 350 else 0)
            + (gravity - 0.2 * character.velocity.y) * 0.016) ∧
    (character.step 0.016 0 350).position.y
      = character.position.y + (character.step 0.016 0 350).velocity.y * 0.016 :=
  (step_euler_equations character 0.016 0 350).2.2.2
    (by norm_num [character, allocate, Entity.init, gravity, pixels_per_meter,
      ground_height, height])

/-- Claim C2: from any state with `position.y >= ground_height` and any
`dt >= 0` (and any `input`, `jumpImpulse`), after `step` the entity satisfies
`position.y >= ground_height`; and whenever the integrated `position.y` falls
below `ground_height`, `step` sets `position.y = ground_height` and
`velocity.y = 0`. -/
theorem step_ground_invariant (e : Entity) (dt input jump : ℚ)
    (_hy : (ground_height : ℚ) ≤ e.position.y) (_ht : 0 ≤ dt) :
    (ground_height : ℚ) ≤ (e.step dt input jump).position.y ∧
    ((e.position.y
        + (e.velocity.y
            + ((if e.position.y = (ground_height : ℚ) then jump else 0)
                + (gravity - 0.2 * e.velocity.y) * dt)) * dt)
          < (ground_height : ℚ) →
      (e.step dt input jump).position.y = (ground_height : ℚ) ∧
      (e.step dt input jump).velocity.y = 0) := by
  by_cases h : e.position.y = (ground_height : ℚ) <;>
    simp only [Entity.step, Entity.stepCore, h, ite_true, ite_false,
      ne_eq, not_true_eq_false, not_false_eq_true, if_true, if_false] <;>
    split_ifs with hc <;>
    simp_all

/-- Witness for C2 at a concrete grounded state: one step of the allocated
character with `dt = 0.016` keeps it at or above the ground plane. -/
theorem step_ground_invariant_witness :
    (ground_height : ℚ) ≤ (character.step 0.016 0 0).position.y :=
  (step_ground_invariant character 0.016 0 0
    (by norm_num [character, allocate, Entity.init]) (by norm_num)).1

/-- Claim C3: the entity counts as grounded iff `position.y` equals
`ground_height` under the exact equality test; for every airborne state
(`position.y ≠ ground_height`) the call proceeds with `jumpImpulse` replaced
by `0` and `input` multiplied by `0.5`, and for every grounded state the
arguments pass through unchanged. -/
theorem step_airborne_rule (e : Entity) (dt input jump : ℚ) :
    (e.position.y ≠ (ground_height : ℚ) →
      e.step dt input jump = e.stepCore dt (input * 0.5) 0) ∧
    (e.position.y = (ground_height : ℚ) →
      e.step dt input jump = e.stepCore dt input jump) := by
  constructor <;> intro h <;> simp [Entity.step, h]

/-- Witness for C3 at a concrete airborne state (`position.y = 200 ≠ 96`). -/
theorem step_airborne_rule_witness :
    Entity.step ⟨1, ⟨0, 200⟩, ⟨0, 0⟩⟩ 1 6 7
      = Entity.stepCore ⟨1, ⟨0, 200⟩, ⟨0, 0⟩⟩ 1 (6 * 0.5) 0 :=
  (step_airborne_rule ⟨1, ⟨0, 200⟩, ⟨0, 0⟩⟩ 1 6 7).1
    (by rw [ground_height_q]; norm_num)

/-- Counterexample to Claim C4 as stated: calling `step(0.016, 0, 350)` on
the freshly allocated character (grounded, at rest) does not increase
`velocity.y` by exactly `350`; the code adds `350 + (g - 0.2*velocity.y)*dt`,
i.e. `339.95456` here. -/
theorem step_jump_delta_not_impulse :
    (character.step 0.016 0 350).velocity.y ≠ character.velocity.y + 350 := by
  norm_num [character, allocate, Entity.init, Entity.step, Entity.stepCore,
    gravity, pixels_per_meter, ground_height, height]

/-- Claim C4 (amended): from a grounded state, `step` with jump impulse `J`
changes `velocity.y` by exactly `J + (g - 0.2*velocity.y)*dt` — the `J`
contribution an instantaneous term independent of `dt` — and whenever the
updated `velocity.y` is positive and `dt > 0`, the entity leaves the ground
(`position.y > ground_height`) on the position update of that step. -/
theorem step_jump_from_ground (e : Entity) (dt input J : ℚ)
    (hy : e.position.y = (ground_height : ℚ))
    (hvy : 0 < e.velocity.y + (J + (gravity - 0.2 * e.velocity.y) * dt))
    (ht : 0 < dt) :
    (e.step dt input J).velocity.y
      = e.velocity.y + (J + (gravity - 0.2 * e.velocity.y) * dt) ∧
    (ground_height : ℚ) < (e.step dt input J).position.y := by
  have hnc : ¬ ((ground_height : ℚ)
      + (e.velocity.y + (J + (gravity - 0.2 * e.velocity.y) * dt)) * dt)
        < (ground_height : ℚ) := by
    nlinarith
  simp only [Entity.step, Entity.stepCore, hy, ite_true, ite_false,
    ne_eq, not_true_eq_false, if_false]
  rw [if_neg hnc]
  refine ⟨rfl, ?_⟩
  simp only []
  nlinarith

/-- Witness for the amended C4: the concrete scenario of the spec,
`step(0.016, 0, 350)` from rest at ground — `velocity.y` becomes
`350 + g*0.016` and `position.y` exceeds `96`. -/
theorem step_jump_from_ground_witness :
    (character.step 0.016 0 350).velocity.y
        = character.velocity.y + (350 + (gravity - 0.2 * character.velocity.y) * 0.016) ∧
    (ground_height : ℚ) < (character.step 0.016 0 350).position.y :=
  step_jump_from_ground character 0.016 0 350
    (by norm_num [character, allocate, Entity.init])
    (by norm_num [character, allocate, Entity.init, gravity, pixels_per_meter])
    (by norm_num)

theorem step_grounded_rest (e : Entity) (input : ℚ)
    (hy : e.position.y = (ground_height : ℚ)) (hv : e.velocity.y = 0) :
    (e.step 0.016 input 0).position.y = (ground_height : ℚ) ∧
    (e.step 0.016 input 0).velocity.y = 0 ∧
    (e.step 0.016 input 0).velocity.x
      = e.velocity.x + (input - 8 * e.velocity.x) * 0.016 := by
  have hcond : ((ground_height : ℕ) : ℚ)
      + (0 + (0 + (gravity - 0.2 * 0) * 0.016)) * 0.016 < ((ground_height : ℕ) : ℚ) := by
    norm_num [gravity, pixels_per_meter, ground_height, height]
  simp only [Entity.step, Entity.stepCore, hy, hv, ite_true, ite_false, ne_eq,
    not_true_eq_false, not_false_eq_true, if_true, if_false]
  rw [if_pos hcond]
  exact ⟨rfl, rfl, rfl⟩

theorem run_scenario_closed (n : ℕ) :
    (run_scenario n).position.y = (ground_height : ℚ) ∧
    (run_scenario n).velocity.y = 0 ∧
    (run_scenario n).velocity.x = 375 / 2 * (1 - (109 / 125 : ℚ) ^ n) := by
  induction n with
  | zero =>
    refine ⟨?_, rfl, ?_⟩ <;>
      norm_num [run_scenario, character, allocate, Entity.init]
  | succ n ih =>
    obtain ⟨hy, hv, hx⟩ := ih
    have hstep := step_grounded_rest (run_scenario n) 1500 hy hv
    have hns : run_scenario (n + 1) = (run_scenario n).step 0.016 1500 0 := by
      simp [run_scenario, Function.iterate_succ_apply']
    rw [hns]
    refine ⟨hstep.1, hstep.2.1, ?_⟩
    rw [hstep.2.2, hx]
    have h16 : (0.016 : ℚ) = 2 / 125 := by norm_num
    rw [h16]
    ring

theorem idle_scenario_closed (e : Entity)
    (hy : e.position.y = (ground_height : ℚ)) (hv : e.velocity.y = 0) (n : ℕ) :
    (idle_scenario e n).position.y = (ground_height : ℚ) ∧
    (idle_scenario e n).velocity.y = 0 ∧
    (idle_scenario e n).velocity.x = e.velocity.x * (109 / 125 : ℚ) ^ n := by
  induction n with
  | zero =>
    refine ⟨hy, hv, ?_⟩
    simp [idle_scenario]
  | succ n ih =>
    obtain ⟨hy2, hv2, hx⟩ := ih
    have hstep := step_grounded_rest (idle_scenario e n) 0 hy2 hv2
    have hns : idle_scenario e (n + 1) = (idle_scenario e n).step 0.016 0 0 := by
      simp [idle_scenario, Function.iterate_succ_apply']
    rw [hns]
    refine ⟨hstep.1, hstep.2.1, ?_⟩
    rw [hstep.2.2, hx]
    have h16 : (0.016 : ℚ) = 2 / 125 := by norm_num
    rw [h16]
    ring

theorem geom_tail (C ε : ℚ) (hε : 0 < ε) :
    ∃ N : ℕ, ∀ n, N ≤ n → |C| * (109 / 125 : ℚ) ^ n < ε := by
  obtain ⟨N, hN⟩ := exists_pow_lt_of_lt_one
    (show (0 : ℚ) < ε / (|C| + 1) from div_pos hε (by positivity))
    (show (109 / 125 : ℚ) < 1 by norm_num)
  refine ⟨N, fun n hn => ?_⟩
  have hq : ((109 : ℚ) / 125) ^ n ≤ ((109 : ℚ) / 125) ^ N :=
    pow_le_pow_of_le_one (by norm_num) (by norm_num) hn
  have hpos : (0 : ℚ) < ε / (|C| + 1) := div_pos hε (by positivity)
  calc |C| * (109 / 125 : ℚ) ^ n
      ≤ |C| * (109 / 125 : ℚ) ^ N := mul_le_mul_of_nonneg_left hq (abs_nonneg C)
    _ ≤ |C| * (ε / (|C| + 1)) := mul_le_mul_of_nonneg_left (le_of_lt hN) (abs_nonneg C)
    _ < (|C| + 1) * (ε / (|C| + 1)) := mul_lt_mul_of_pos_right (lt_add_one _) hpos
    _ = ε := by
        field_simp

/-- Claim C5: from the initial state `position = (50, 96)`,
`velocity = (0, 0)` (with `ground_height = 96`), iterating
`step(0.016, 1500, 0)` keeps `position.y` pinned at `96` on every iteration
while `velocity.x` increases strictly monotonically toward the fixed point
`1500/8 = 187.5` without ever reaching it; and a grounded entity (zero
vertical velocity) iterated with `input = 0`, `jumpImpulse = 0` stays at
`position.y = ground_height` with `|velocity.x|` decreasing monotonically to
`0`. -/
theorem scenario_convergence :
    ((∀ n, (run_scenario n).position.y = (ground_height : ℚ)) ∧
     (∀ n, (run_scenario n).velocity.x < (run_scenario (n + 1)).velocity.x) ∧
     (∀ n, (run_scenario n).velocity.x < 375 / 2) ∧
     (∀ ε : ℚ, 0 < ε → ∃ N : ℕ, ∀ n, N ≤ n →
        375 / 2 - (run_scenario n).velocity.x < ε)) ∧
    (∀ e : Entity, e.position.y = (ground_height : ℚ) → e.velocity.y = 0 →
      ((∀ n, (idle_scenario e n).position.y = (ground_height : ℚ)) ∧
       (∀ n, |(idle_scenario e (n + 1)).velocity.x|
          ≤ |(idle_scenario e n).velocity.x|) ∧
       (∀ ε : ℚ, 0 < ε → ∃ N : ℕ, ∀ n, N ≤ n →
          |(idle_scenario e n).velocity.x| < ε))) := by
  have habsq : |(109 / 125 : ℚ)| = 109 / 125 := by norm_num
  refine ⟨⟨fun n => (run_scenario_closed n).1, fun n => ?_, fun n => ?_,
    fun ε hε => ?_⟩, fun e hy hv => ⟨fun n => (idle_scenario_closed e hy hv n).1,
    fun n => ?_, fun ε hε => ?_⟩⟩
  · rw [(run_scenario_closed n).2.2, (run_scenario_closed (n + 1)).2.2]
    have hq : (0 : ℚ) < (109 / 125 : ℚ) ^ n := by positivity
    have hs : (109 / 125 : ℚ) ^ (n + 1) = (109 / 125 : ℚ) ^ n * (109 / 125) :=
      pow_succ _ _
    nlinarith
  · rw [(run_scenario_closed n).2.2]
    have hq : (0 : ℚ) < (109 / 125 : ℚ) ^ n := by positivity
    nlinarith
  · obtain ⟨N, hN⟩ := geom_tail (375 / 2) ε hε
    refine ⟨N, fun n hn => ?_⟩
    have h1 := hN n hn
    have habs : |(375 / 2 : ℚ)| = 375 / 2 := by norm_num
    rw [habs] at h1
    rw [(run_scenario_closed n).2.2]
    linarith
  · rw [(idle_scenario_closed e hy hv (n + 1)).2.2,
      (idle_scenario_closed e hy hv n).2.2, abs_mul, abs_mul, abs_pow, abs_pow,
      habsq]
    exact mul_le_mul_of_nonneg_left
      (pow_le_pow_of_le_one (by norm_num) (by norm_num) (Nat.le_succ n))
      (abs_nonneg _)
  · obtain ⟨N, hN⟩ := geom_tail e.velocity.x ε hε
    refine ⟨N, fun n hn => ?_⟩
    rw [(idle_scenario_closed e hy hv n).2.2, abs_mul, abs_pow, habsq]
    exact hN n hn

/-- Witness for C5: pinned ground height after two driven steps, and one
idle step from the freshly allocated character does not increase the
horizontal speed. -/
theorem scenario_convergence_witness :
    (run_scenario 2).position.y = (ground_height : ℚ) ∧
    |(idle_scenario character 1).velocity.x| ≤ |(idle_scenario character 0).velocity.x| :=
  ⟨scenario_convergence.1.1 2,
   (scenario_convergence.2 character
      (by norm_num [character, allocate, Entity.init]) rfl).2.1 0⟩

/-- Claim C6: `render` selects the running sprite iff `|velocity.x| > 10.0`
strictly; in particular at exactly `|velocity.x| = 10.0` the idle sprite is
chosen. -/
theorem sprite_selection (e : Entity) :
    (e.sprite_to_draw = SpriteChoice.running ↔ 10 < |e.velocity.x|) ∧
    (|e.velocity.x| = 10 → e.sprite_to_draw = SpriteChoice.idle) := by
  have h10 : (10.0 : ℚ) = 10 := by norm_num
  constructor
  · simp only [Entity.sprite_to_draw, h10]
    split_ifs with h
    · simp [h]
    · simp [h]
  · intro h
    simp only [Entity.sprite_to_draw, h10, h]
    rw [if_neg (by norm_num)]

/-- Witness for C6 at the boundary: an entity moving at exactly
`velocity.x = 10` draws the idle sprite. -/
theorem sprite_selection_witness :
    Entity.sprite_to_draw ⟨1, ⟨0, 96⟩, ⟨10, 0⟩⟩ = SpriteChoice.idle :=
  (sprite_selection ⟨1, ⟨0, 96⟩, ⟨10, 0⟩⟩).2 (by norm_num)

theorem step_velocity_x_direction (e : Entity) (dt input jump : ℚ) :
    (e.step dt input jump).direction
      = (if (e.step dt input jump).velocity.x ≠ 0 then
          (if (e.step dt input jump).velocity.x > 0 then 1 else -1)
         else e.direction) := by
  by_cases h : e.position.y = (ground_height : ℚ) <;>
    simp only [Entity.step, Entity.stepCore, h, ite_true, ite_false,
      ne_eq, not_true_eq_false, not_false_eq_true, if_true, if_false] <;>
    split_ifs <;>
    simp_all

/-- Claim C7: after `step`, if the updated `velocity.x` is nonzero the
direction is its sign (`+1` when positive, else `-1`), and when the updated
`velocity.x` is zero the direction is left unchanged; the constructor
initialises `direction = 1`, and membership in `{+1, -1}` is preserved by
every step. -/
theorem step_direction_sign (e : Entity) (dt input jump : ℚ) :
    ((e.step dt input jump).velocity.x ≠ 0 →
      (e.step dt input jump).direction
        = (if (e.step dt input jump).velocity.x > 0 then 1 else -1)) ∧
    ((e.step dt input jump).velocity.x = 0 →
      (e.step dt input jump).direction = e.direction) ∧
    Entity.init.direction = 1 ∧
    (e.direction = 1 ∨ e.direction = -1 →
      (e.step dt input jump).direction = 1 ∨ (e.step dt input jump).direction = -1) := by
  refine ⟨fun h => ?_, fun h => ?_, rfl, fun h => ?_⟩
  · rw [step_velocity_x_direction, if_pos h]
  · rw [step_velocity_x_direction, if_neg (by simp [h])]
  · rw [step_velocity_x_direction]
    split_ifs with h1 h2
    · exact Or.inl rfl
    · exact Or.inr rfl
    · exact h

/-- Witness for C7: after one idle step of the allocated character the
direction is unchanged (the updated `velocity.x` is zero), and it lies in
`{+1, -1}`. -/
theorem step_direction_sign_witness :
    (character.step 0.016 0 0).direction = character.direction ∧
    ((character.step 0.016 0 0).direction = 1 ∨
      (character.step 0.016 0 0).direction = -1) :=
  ⟨(step_direction_sign character 0.016 0 0).2.1
      (by norm_num [character, allocate, Entity.init, Entity.step, Entity.stepCore,
        ground_height, height, gravity, pixels_per_meter]),
   (step_direction_sign character 0.016 0 0).2.2.2
      (Or.inl (by norm_num [character, allocate, Entity.init]))⟩

/-- Counterexample to Claim C8 as stated: with a sprite of odd pixel width
(`w = 3`), the on-screen horizontal extent differs between `direction = 1`
and `direction = -1` at the same position — the stored anchor offset uses
the integer half-width `w / 2 = 1`, so the mirrored sprite is shifted by one
pixel (extent `(-1, 2)` versus `(-2, 1)` at `position.x = 0`). -/
theorem mirror_extent_shift :
    Entity.device_x_extent ⟨1, ⟨0, 96⟩, ⟨0, 0⟩⟩ 3 5
      ≠ Entity.device_x_extent ⟨-1, ⟨0, 96⟩, ⟨0, 0⟩⟩ 3 5 := by
  norm_num [Entity.device_x_extent, Entity.draw_point, Entity.sprite_position,
    sprite_render_point, sprite_offset, Prod.ext_iff]

/-- Claim C8 (amended): the sprite draw point is
`entity.position + anchorOffset` with `anchorOffset = (-(w/2), h)` (`w/2`
the stored integer half-width; bottom-center anchoring), the vertical screen
coordinate is `frameHeight - worldY`, and `position.x` is pre-multiplied by
`direction` before the anchor offset is added; whenever the sprite
has even pixel width `w`, the device-space horizontal extent is identical for
`direction = +1` and `direction = -1` (the sprite flips in place), while for
odd `w` the mirrored extent is shifted by one pixel. -/
theorem render_geometry (e : Entity) (p v : Vec) (w h : ℕ) :
    e.draw_point w h
      = ⟨e.position.x * (e.direction : ℚ) - ((w / 2 : ℕ) : ℚ),
         (height : ℚ) - (e.position.y + (h : ℚ))⟩ ∧
    (w % 2 = 0 →
      Entity.device_x_extent ⟨1, p, v⟩ w h
        = Entity.device_x_extent ⟨-1, p, v⟩ w h) := by
  constructor
  · simp only [Entity.draw_point, Entity.sprite_position, sprite_render_point,
      sprite_offset, Vec.mk.injEq]
    constructor <;> ring
  · intro hw
    obtain ⟨k, hk⟩ := (Nat.even_iff.2 hw)
    subst hk
    have h2 : (k + k) / 2 = k := by omega
    simp only [Entity.device_x_extent, Entity.draw_point, Entity.sprite_position,
      sprite_render_point, sprite_offset, h2]
    norm_num [Prod.ext_iff]
    constructor <;> ring

/-- Witness for C8: with an even sprite width (`w = 4`) the two directions
paint the same horizontal extent at `position = (7, 96)`. -/
theorem render_geometry_witness :
    Entity.device_x_extent ⟨1, ⟨7, 96⟩, ⟨0, 0⟩⟩ 4 6
      = Entity.device_x_extent ⟨-1, ⟨7, 96⟩, ⟨0, 0⟩⟩ 4 6 :=
  (render_geometry ⟨1, ⟨7, 96⟩, ⟨0, 0⟩⟩ ⟨7, 96⟩ ⟨0, 0⟩ 4 6).2 (by norm_num)

/-- Claim C9: key events update the control scalars symmetrically — key-down
of A/Left subtracts `1` from the input bias and key-up adds `1` back,
key-down of D/Right adds `1` and key-up subtracts `1`, key-down of
W/Up/Space sets the jump flag to `1` — `handle_event` returns `false`
exactly on a quit event, and the per-frame `step` call passes
`character_input * 1500` and `character_jump * 350` to the integrator and
resets the jump flag to `0` while keeping the input bias. -/
theorem controls_update (g : Controls) :
    handle_event (.key_down .a) g
        = (true, { g with character_input := g.character_input - 1 }) ∧
    handle_event (.key_down .left) g
        = (true, { g with character_input := g.character_input - 1 }) ∧
    handle_event (.key_up .a) g
        = (true, { g with character_input := g.character_input + 1 }) ∧
    handle_event (.key_up .left) g
        = (true, { g with character_input := g.character_input + 1 }) ∧
    handle_event (.key_down .d) g
        = (true, { g with character_input := g.character_input + 1 }) ∧
    handle_event (.key_down .right) g
        = (true, { g with character_input := g.character_input + 1 }) ∧
    handle_event (.key_up .d) g
        = (true, { g with character_input := g.character_input - 1 }) ∧
    handle_event (.key_up .right) g
        = (true, { g with character_input := g.character_input - 1 }) ∧
    handle_event (.key_down .w) g = (true, { g with character_jump := 1 }) ∧
    handle_event (.key_down .up) g = (true, { g with character_jump := 1 }) ∧
    handle_event (.key_down .space) g = (true, { g with character_jump := 1 }) ∧
    (∀ ev : Event, (handle_event ev g).1 = false ↔ ev = Event.quit) ∧
    (∀ (c : Entity) (t : ℚ),
      step g c t
        = (⟨g.character_input, 0⟩,
           c.step t ((g.character_input : ℚ) * 1500.0)
             ((g.character_jump : ℚ) * 350.0))) := by
  refine ⟨rfl, rfl, rfl, rfl, rfl, rfl, rfl, rfl, rfl, rfl, rfl, fun ev => ?_,
    fun c t => rfl⟩
  cases ev with
  | key_up k => cases k <;> simp [handle_event]
  | key_down k => cases k <;> simp [handle_event]
  | quit => simp [handle_event]
  | other => simp [handle_event]

/-- Witness for C9: from the zero-initialised controls, pressing Left gives
input bias `-1`, and only a quit event stops the loop. -/
theorem controls_update_witness :
    handle_event (.key_down .left) initial_controls = (true, ⟨-1, 0⟩) ∧
    ((handle_event Event.quit initial_controls).1 = false ↔
      Event.quit = Event.quit) :=
  ⟨(controls_update initial_controls).2.1,
   (controls_update initial_controls).2.2.2.2.2.2.2.2.2.2.2.1 Event.quit⟩

/-- Claim C10: `allocate` leaves the control state at its zero
initialization — the statement `character_input << 1, 0;` is a
value-discarding shift/comma expression that modifies nothing — and the
character starts grounded at `(50, ground_height)` with zero velocity. -/
theorem allocate_initial_state :
    (∀ g : Controls, (allocate g).1 = g) ∧
    (allocate initial_controls).1.character_input = 0 ∧
    (allocate initial_controls).1.character_jump = 0 ∧
    character.position = ⟨50, (ground_height : ℚ)⟩ ∧
    character.velocity = ⟨0, 0⟩ ∧
    character.position.y = (ground_height : ℚ) := by
  refine ⟨fun g => rfl, rfl, rfl, ?_, rfl, ?_⟩ <;>
    simp [character, allocate, Entity.init]

end Game
